import Mathlib

/-!
Shallow embedding of the CHIP-8 CPU core from src/main.rs.

Machine integers are modelled as Nat with explicit reductions modulo
2^8 (registers, memory bytes) and 2^16 (stack slots, via the `as u16`
cast in `call`).  Wrapping u8 arithmetic (release-mode semantics of
the Rust operators) is written as explicit `% 256`.  Fallible
operations (Rust panics: array indexing out of bounds, stack
underflow and overflow aborts, the unsupported-opcode abort) are
modelled with `Except Fault`.  The unbounded `loop` in `CPU::run` is
modelled with explicit fuel.
-/

/-- The fatal conditions of the interpreter: the two explicit aborts in
`ret` and `call`, the implicit bounds-check aborts of array indexing
(memory, stack, registers), and the unsupported-opcode abort of the
dispatch wildcard arms. -/
inductive Fault where
  | stackUnderflow
  | stackOverflow
  | memoryOOB
  | stackOOB
  | registerOOB
  | unsupportedOpcode (opcode : Nat)
  deriving DecidableEq

/-- Machine state, mirroring `struct CPU`: 16 eight-bit registers, a
4096-byte memory, the program counter `position_in_memory`, a 16-slot
stack of 16-bit return addresses, and the stack pointer.  The fixed
capacities are stated as hypotheses on theorems rather than baked into
the types. -/
structure CPU where
  registers : List Nat
  position_in_memory : Nat
  memory : List Nat
  stack : List Nat
  stack_pointer : Nat
  deriving DecidableEq

/-- Outcome of executing one fetched instruction: the run loop returns
(opcode 0x0000), continues with a new state, or aborts. -/
inductive StepOutcome where
  | halt (cpu : CPU)
  | next (cpu : CPU)
  | fault (f : Fault)
  deriving DecidableEq

/-- Outcome of the fuelled run loop. -/
inductive RunResult where
  | halted (cpu : CPU)
  | fault (f : Fault)
  | outOfFuel (cpu : CPU)
  deriving DecidableEq

/-- Rust `self.registers[i]`: read with bounds check. -/
def getReg (regs : List Nat) (i : Nat) : Except Fault Nat :=
  match regs[i]? with
  | some v => .ok v
  | none => .error .registerOOB

/-- Rust `self.registers[i] = v`: write with bounds check. -/
def setReg (regs : List Nat) (i v : Nat) : Except Fault (List Nat) :=
  if i < regs.length then .ok (regs.set i v) else .error .registerOOB

/-- `CPU::read_opcode`: big-endian combination of the two memory bytes
at the program counter. -/
def CPU.read_opcode (cpu : CPU) : Except Fault Nat :=
  match cpu.memory[cpu.position_in_memory]?, cpu.memory[cpu.position_in_memory + 1]? with
  | some op_byte1, some op_byte2 => .ok ((op_byte1 <<< 8) ||| op_byte2)
  | _, _ => .error .memoryOOB

/-- `CPU::ret`: abort on `stack_pointer == 0`, otherwise decrement the
stack pointer and jump to the popped address. -/
def CPU.ret (cpu : CPU) : Except Fault CPU :=
  if cpu.stack_pointer = 0 then
    .error .stackUnderflow
  else
    match cpu.stack[cpu.stack_pointer - 1]? with
    | some addr =>
        .ok { cpu with
                stack_pointer := cpu.stack_pointer - 1,
                position_in_memory := addr }
    | none => .error .stackOOB

/-- `CPU::jmp`: set the program counter to `addr`. -/
def CPU.jmp (cpu : CPU) (addr : Nat) : Except Fault CPU :=
  .ok { cpu with position_in_memory := addr }

/-- `CPU::call`: the Rust guard is `sp > stack.len()` (= 16), so the
explicit overflow abort fires only for `sp ≥ 17`; at `sp = 16` the
write `stack[sp]` itself aborts with an index-out-of-bounds panic.
The pushed program counter goes through an `as u16` cast. -/
def CPU.call (cpu : CPU) (addr : Nat) : Except Fault CPU :=
  if cpu.stack_pointer > cpu.stack.length then
    .error .stackOverflow
  else if cpu.stack_pointer < cpu.stack.length then
    .ok { cpu with
            stack := cpu.stack.set cpu.stack_pointer (cpu.position_in_memory % 65536),
            stack_pointer := cpu.stack_pointer + 1,
            position_in_memory := addr }
  else .error .stackOOB

/-- `CPU::se`: compares its two arguments directly and skips (adds 2 to
the program counter) when they are equal.  Note the run loop passes the
decoded register index as the first argument. -/
def CPU.se (cpu : CPU) (vx kk : Nat) : CPU :=
  if vx = kk then
    { cpu with position_in_memory := cpu.position_in_memory + 2 }
  else cpu

/-- `CPU::sne`: skip when the two arguments differ. -/
def CPU.sne (cpu : CPU) (vx kk : Nat) : CPU :=
  if vx ≠ kk then
    { cpu with position_in_memory := cpu.position_in_memory + 2 }
  else cpu

/-- `CPU::ld`: store `kk` into register `vx`. -/
def CPU.ld (cpu : CPU) (vx kk : Nat) : Except Fault CPU := do
  let regs ← setReg cpu.registers vx kk
  return { cpu with registers := regs }

/-- `CPU::add`: `self.registers[vx] += kk`, wrapping u8 addition
(release-mode semantics), no flag update. -/
def CPU.add (cpu : CPU) (vx kk : Nat) : Except Fault CPU := do
  let v ← getReg cpu.registers vx
  let regs ← setReg cpu.registers vx ((v + kk) % 256)
  return { cpu with registers := regs }

/-- `CPU::or_xy`: bitwise OR of the two register values into `Vx`. -/
def CPU.or_xy (cpu : CPU) (x y : Nat) : Except Fault CPU := do
  let x_ ← getReg cpu.registers x
  let y_ ← getReg cpu.registers y
  let regs ← setReg cpu.registers x (x_ ||| y_)
  return { cpu with registers := regs }

/-- `CPU::and_xy`: bitwise AND of the two register values into `Vx`. -/
def CPU.and_xy (cpu : CPU) (x y : Nat) : Except Fault CPU := do
  let x_ ← getReg cpu.registers x
  let y_ ← getReg cpu.registers y
  let regs ← setReg cpu.registers x (x_ &&& y_)
  return { cpu with registers := regs }

/-- `CPU::xor_xy`: bitwise XOR of the two register values into `Vx`. -/
def CPU.xor_xy (cpu : CPU) (x y : Nat) : Except Fault CPU := do
  let x_ ← getReg cpu.registers x
  let y_ ← getReg cpu.registers y
  let regs ← setReg cpu.registers x (x_ ^^^ y_)
  return { cpu with registers := regs }

/-- `CPU::add_xy`: `overflowing_add` on the two register values; the
low 8 bits go to `Vx` first, then `VF` records the carry. -/
def CPU.add_xy (cpu : CPU) (x y : Nat) : Except Fault CPU := do
  let arg1 ← getReg cpu.registers x
  let arg2 ← getReg cpu.registers y
  let val := (arg1 + arg2) % 256
  let regs1 ← setReg cpu.registers x val
  let regs2 ←
    if 255 < arg1 + arg2 then setReg regs1 0xF 1 else setReg regs1 0xF 0
  return { cpu with registers := regs2 }

/-- `CPU::sub_xy`: `VF` records the comparison first, then `Vx` gets
the wrapping u8 difference (release-mode semantics of `x_ - y_`). -/
def CPU.sub_xy (cpu : CPU) (x y : Nat) : Except Fault CPU := do
  let x_ ← getReg cpu.registers x
  let y_ ← getReg cpu.registers y
  let regs1 ←
    if y_ < x_ then setReg cpu.registers 0xF 1 else setReg cpu.registers 0xF 0
  let regs2 ← setReg regs1 x ((x_ + 256 - y_) % 256)
  return { cpu with registers := regs2 }

/-- Decoded field `x`: bits 8 to 11 of the opcode. -/
def decodeX (opcode : Nat) : Nat := (opcode &&& 0x0F00) >>> 8

/-- Decoded field `y`: bits 4 to 7 of the opcode. -/
def decodeY (opcode : Nat) : Nat := (opcode &&& 0x00F0) >>> 4

/-- Decoded field `kk`: the low byte of the opcode. -/
def decodeKK (opcode : Nat) : Nat := opcode &&& 0x00FF

/-- Decoded field `op_minor`: the low nibble of the opcode. -/
def decodeMinor (opcode : Nat) : Nat := opcode &&& 0x000F

/-- Decoded field `addr` (`nnn`): the low 12 bits of the opcode. -/
def decodeAddr (opcode : Nat) : Nat := opcode &&& 0x0FFF

/-- Lift a fallible handler result into a step outcome. -/
def outcomeOf (r : Except Fault CPU) : StepOutcome :=
  match r with
  | .ok c => .next c
  | .error f => .fault f

/-- The `match opcode` dispatch of `CPU::run`, applied to the state
with the program counter already advanced past the fetched opcode.
The arguments passed to each handler mirror the Rust call sites; in
particular the skip instructions receive the decoded indices `x`, `kk`
and `x`, `y`. -/
def CPU.dispatch (cpu : CPU) (opcode : Nat) : StepOutcome :=
  let x := decodeX opcode
  let y := decodeY opcode
  let kk := decodeKK opcode
  let op_minor := decodeMinor opcode
  let addr := decodeAddr opcode
  if opcode = 0x0000 then .halt cpu
  else if opcode = 0x00E0 then .next cpu
  else if opcode = 0x00EE then outcomeOf cpu.ret
  else if opcode < 0x1000 then .fault (.unsupportedOpcode opcode)
  else if opcode < 0x2000 then outcomeOf (cpu.jmp addr)
  else if opcode < 0x3000 then outcomeOf (cpu.call addr)
  else if opcode < 0x4000 then .next (cpu.se x kk)
  else if opcode < 0x5000 then .next (cpu.sne x kk)
  else if opcode < 0x6000 then .next (cpu.se x y)
  else if opcode < 0x7000 then outcomeOf (cpu.ld x kk)
  else if opcode < 0x8000 then outcomeOf (cpu.add x kk)
  else if opcode < 0x9000 then
    match op_minor with
    | 0 => outcomeOf (do cpu.ld x (← getReg cpu.registers y))
    | 1 => outcomeOf (cpu.or_xy x y)
    | 2 => outcomeOf (cpu.and_xy x y)
    | 3 => outcomeOf (cpu.xor_xy x y)
    | 4 => outcomeOf (cpu.add_xy x y)
    | 5 => outcomeOf (cpu.sub_xy x y)
    | _ => .fault (.unsupportedOpcode opcode)
  else .fault (.unsupportedOpcode opcode)

/-- One iteration of the `loop` in `CPU::run`: fetch, advance the
program counter by 2, then dispatch. -/
def CPU.step (cpu : CPU) : StepOutcome :=
  match cpu.read_opcode with
  | .error f => .fault f
  | .ok opcode =>
      CPU.dispatch
        { cpu with position_in_memory := cpu.position_in_memory + 2 } opcode

/-- The run loop with explicit fuel: iterate `step` until halt, a
fault, or fuel exhaustion. -/
def CPU.run (cpu : CPU) : Nat → RunResult
  | 0 => .outOfFuel cpu
  | fuel + 1 =>
      match cpu.step with
      | .halt c => .halted c
      | .next c => c.run fuel
      | .fault f => .fault f

/-! Helper lemmas about the embedding. -/

theorem getReg_ok (regs : List Nat) (i v : Nat) (h : regs[i]? = some v) :
    getReg regs i = .ok v := by
  unfold getReg; rw [h]

theorem setReg_ok (regs : List Nat) (i v : Nat) (h : i < regs.length) :
    setReg regs i v = .ok (regs.set i v) := by
  unfold setReg; rw [if_pos h]

theorem ok_bind {α β : Type} (a : α) (f : α → Except Fault β) :
    (Except.ok a : Except Fault α) >>= f = f a := rfl

theorem pure_ok {α : Type} (a : α) : (pure a : Except Fault α) = .ok a := rfl

theorem iteFalse {c : Prop} [Decidable c] {α : Sort _} (hc : ¬ c) (a b : α) :
    (if c then a else b) = b := if_neg hc

theorem iteTrue {c : Prop} [Decidable c] {α : Sort _} (hc : c) (a b : α) :
    (if c then a else b) = a := if_pos hc

theorem lt_of_getElem?_some {l : List Nat} {i v : Nat} (h : l[i]? = some v) :
    i < l.length := by
  rcases Nat.lt_or_ge i l.length with hlt | hge
  · exact hlt
  · rw [List.getElem?_eq_none hge] at h; cases h

theorem decodeX_lt (opcode : Nat) : decodeX opcode < 16 := by
  unfold decodeX
  have h : opcode &&& 0x0F00 ≤ 0x0F00 := Nat.and_le_right
  have h2 := Nat.div_le_div_right (c := 256) h
  simp only [Nat.shiftRight_eq_div_pow]
  omega

theorem decodeY_lt (opcode : Nat) : decodeY opcode < 16 := by
  unfold decodeY
  have h : opcode &&& 0x00F0 ≤ 0x00F0 := Nat.and_le_right
  have h2 := Nat.div_le_div_right (c := 16) h
  simp only [Nat.shiftRight_eq_div_pow]
  omega

theorem decodeMinor_le (opcode : Nat) : decodeMinor opcode ≤ 15 :=
  Nat.and_le_right

/-- If one iteration faults, the whole run reports that fault at once,
whatever fuel remains. -/
theorem run_succ_fault (s : CPU) (f : Fault) (fuel : Nat)
    (h : s.step = .fault f) : s.run (fuel + 1) = .fault f := by
  simp only [CPU.run, h]

/-- Fetching from a symbolic state with known bytes at the program
counter: the step is the dispatch of the big-endian opcode on the
state with the program counter advanced by 2. -/
theorem step_eq_dispatch (cpu : CPU) (b0 b1 : Nat)
    (hb0 : cpu.memory[cpu.position_in_memory]? = some b0)
    (hb1 : cpu.memory[cpu.position_in_memory + 1]? = some b1) :
    cpu.step =
      CPU.dispatch { cpu with position_in_memory := cpu.position_in_memory + 2 }
        ((b0 <<< 8) ||| b1) := by
  unfold CPU.step CPU.read_opcode
  rw [hb0, hb1]

/-! Routing lemmas: which handler each opcode family reaches. -/

theorem dispatch_ret (cpu : CPU) : cpu.dispatch 0x00EE = outcomeOf cpu.ret := rfl

theorem dispatch_call (cpu : CPU) (op : Nat) (h1 : 0x2000 ≤ op) (h2 : op < 0x3000) :
    cpu.dispatch op = outcomeOf (cpu.call (decodeAddr op)) := by
  unfold CPU.dispatch
  rw [iteFalse (by omega), iteFalse (by omega), iteFalse (by omega), iteFalse (by omega),
      iteFalse (by omega), iteTrue (by omega)]

theorem dispatch_se_imm (cpu : CPU) (op : Nat) (h1 : 0x3000 ≤ op) (h2 : op < 0x4000) :
    cpu.dispatch op = .next (cpu.se (decodeX op) (decodeKK op)) := by
  unfold CPU.dispatch
  rw [iteFalse (by omega), iteFalse (by omega), iteFalse (by omega), iteFalse (by omega),
      iteFalse (by omega), iteFalse (by omega), iteTrue (by omega)]

theorem dispatch_se_reg (cpu : CPU) (op : Nat) (h1 : 0x5000 ≤ op) (h2 : op < 0x6000) :
    cpu.dispatch op = .next (cpu.se (decodeX op) (decodeY op)) := by
  unfold CPU.dispatch
  rw [iteFalse (by omega), iteFalse (by omega), iteFalse (by omega), iteFalse (by omega),
      iteFalse (by omega), iteFalse (by omega), iteFalse (by omega), iteFalse (by omega),
      iteTrue (by omega)]

theorem dispatch_add_imm (cpu : CPU) (op : Nat) (h1 : 0x7000 ≤ op) (h2 : op < 0x8000) :
    cpu.dispatch op = outcomeOf (cpu.add (decodeX op) (decodeKK op)) := by
  unfold CPU.dispatch
  rw [iteFalse (by omega), iteFalse (by omega), iteFalse (by omega), iteFalse (by omega),
      iteFalse (by omega), iteFalse (by omega), iteFalse (by omega), iteFalse (by omega),
      iteFalse (by omega), iteFalse (by omega), iteTrue (by omega)]

theorem dispatch_add_xy (cpu : CPU) (op : Nat) (h1 : 0x8000 ≤ op) (h2 : op < 0x9000)
    (h3 : decodeMinor op = 4) :
    cpu.dispatch op = outcomeOf (cpu.add_xy (decodeX op) (decodeY op)) := by
  unfold CPU.dispatch
  rw [iteFalse (by omega), iteFalse (by omega), iteFalse (by omega), iteFalse (by omega),
      iteFalse (by omega), iteFalse (by omega), iteFalse (by omega), iteFalse (by omega),
      iteFalse (by omega), iteFalse (by omega), iteFalse (by omega), iteTrue (by omega), h3]

theorem dispatch_sub_xy (cpu : CPU) (op : Nat) (h1 : 0x8000 ≤ op) (h2 : op < 0x9000)
    (h3 : decodeMinor op = 5) :
    cpu.dispatch op = outcomeOf (cpu.sub_xy (decodeX op) (decodeY op)) := by
  unfold CPU.dispatch
  rw [iteFalse (by omega), iteFalse (by omega), iteFalse (by omega), iteFalse (by omega),
      iteFalse (by omega), iteFalse (by omega), iteFalse (by omega), iteFalse (by omega),
      iteFalse (by omega), iteFalse (by omega), iteFalse (by omega), iteTrue (by omega), h3]

/-! Handler characterizations on well-formed inputs. -/

theorem CPU.ld_spec (cpu : CPU) (x kk : Nat) (hx : x < cpu.registers.length) :
    cpu.ld x kk = .ok { cpu with registers := cpu.registers.set x kk } := by
  unfold CPU.ld
  rw [setReg_ok _ _ _ hx, ok_bind, pure_ok]

theorem CPU.add_spec (cpu : CPU) (x kk vx : Nat)
    (hvx : cpu.registers[x]? = some vx) :
    cpu.add x kk = .ok { cpu with registers := cpu.registers.set x ((vx + kk) % 256) } := by
  unfold CPU.add
  rw [getReg_ok _ _ _ hvx, ok_bind, setReg_ok _ _ _ (lt_of_getElem?_some hvx),
      ok_bind, pure_ok]

theorem CPU.add_xy_spec (cpu : CPU) (x y vx vy : Nat)
    (hvx : cpu.registers[x]? = some vx) (hvy : cpu.registers[y]? = some vy)
    (hlen : cpu.registers.length = 16) :
    cpu.add_xy x y = .ok { cpu with registers := ((cpu.registers.set x ((vx + vy) % 256)).set 0xF (if 255 < vx + vy then 1 else 0)) } := by
  unfold CPU.add_xy
  have hx := lt_of_getElem?_some hvx
  by_cases hc : 255 < vx + vy
  · simp only [getReg_ok _ _ _ hvx, getReg_ok _ _ _ hvy, ok_bind, setReg_ok _ _ _ hx,
      if_pos hc]
    rw [setReg_ok _ _ _ (by simp [hlen]), ok_bind, pure_ok]
  · simp only [getReg_ok _ _ _ hvx, getReg_ok _ _ _ hvy, ok_bind, setReg_ok _ _ _ hx,
      if_neg hc]
    rw [setReg_ok _ _ _ (by simp [hlen]), ok_bind, pure_ok]

theorem CPU.sub_xy_spec (cpu : CPU) (x y vx vy : Nat)
    (hvx : cpu.registers[x]? = some vx) (hvy : cpu.registers[y]? = some vy)
    (hlen : cpu.registers.length = 16) :
    cpu.sub_xy x y = .ok { cpu with registers := ((cpu.registers.set 0xF (if vy < vx then 1 else 0)).set x ((vx + 256 - vy) % 256)) } := by
  unfold CPU.sub_xy
  have hx := lt_of_getElem?_some hvx
  by_cases hc : vy < vx
  · simp only [getReg_ok _ _ _ hvx, getReg_ok _ _ _ hvy, ok_bind, if_pos hc,
      setReg_ok _ _ _ (show (0xF : Nat) < cpu.registers.length by omega)]
    rw [setReg_ok _ _ _ (by simp; omega), ok_bind, pure_ok]
  · simp only [getReg_ok _ _ _ hvx, getReg_ok _ _ _ hvy, ok_bind, if_neg hc,
      setReg_ok _ _ _ (show (0xF : Nat) < cpu.registers.length by omega)]
    rw [setReg_ok _ _ _ (by simp; omega), ok_bind, pure_ok]

theorem CPU.call_spec (cpu : CPU) (addr : Nat)
    (h : cpu.stack_pointer < cpu.stack.length) :
    cpu.call addr = .ok { cpu with
      stack := cpu.stack.set cpu.stack_pointer (cpu.position_in_memory % 65536),
      stack_pointer := cpu.stack_pointer + 1,
      position_in_memory := addr } := by
  unfold CPU.call
  rw [iteFalse (by omega), if_pos h]

theorem CPU.ret_spec (cpu : CPU) (a : Nat) (h0 : ¬ cpu.stack_pointer = 0)
    (ha : cpu.stack[cpu.stack_pointer - 1]? = some a) :
    cpu.ret = .ok { cpu with
      stack_pointer := cpu.stack_pointer - 1,
      position_in_memory := a } := by
  unfold CPU.ret
  rw [if_neg h0, ha]

/-! Claim theorems. -/

/-- C1: the claim states that SKIP-IF-EQUAL-IMM (0x3xkk) adds an extra
2 to the program counter exactly when the value of register Vx equals
kk.  The run loop passes the decoded register index x itself to `se`,
so the comparison is between the index and kk: with V1 = 5 the opcode
0x3105 does not skip although V1 = kk = 5, and the opcode 0x3101 skips
although V1 = 5 differs from kk = 1.  Both states are post-fetch, with
the program counter already advanced to 2. -/
theorem C1_skip_eq_imm_compares_index_not_value :
    (CPU.dispatch ⟨[0, 5, 0, 0, 0, 0, 0, 0, 0, 0, 0, 0, 0, 0, 0, 0], 2, [], [], 0⟩ 0x3105
      = .next ⟨[0, 5, 0, 0, 0, 0, 0, 0, 0, 0, 0, 0, 0, 0, 0, 0], 2, [], [], 0⟩) ∧
    (CPU.dispatch ⟨[0, 5, 0, 0, 0, 0, 0, 0, 0, 0, 0, 0, 0, 0, 0, 0], 2, [], [], 0⟩ 0x3101
      = .next ⟨[0, 5, 0, 0, 0, 0, 0, 0, 0, 0, 0, 0, 0, 0, 0, 0], 4, [], [], 0⟩) := by
  decide

/-- C2: the claim states that SKIP-IF-EQUAL-REG (0x5xy0) skips exactly
when the value of Vx equals the value of Vy.  The run loop passes both
decoded register indices to `se`, so opcode 0x5120 with V1 = V2 = 0
compares the indices 1 and 2 and does not skip although the register
values are equal. -/
theorem C2_skip_eq_reg_compares_indices :
    CPU.dispatch ⟨[0, 0, 0, 0, 0, 0, 0, 0, 0, 0, 0, 0, 0, 0, 0, 0], 2, [], [], 0⟩ 0x5120
      = .next ⟨[0, 0, 0, 0, 0, 0, 0, 0, 0, 0, 0, 0, 0, 0, 0, 0], 2, [], [], 0⟩ := by
  decide

/-- C3: executing ADD-REG (0x8xy4) with x different from 0xF stores
the wrapped sum of the two register values in Vx and sets VF to 1
exactly when the 8-bit addition overflows. -/
theorem C3_add_reg_sum_and_carry (cpu : CPU) (op vx vy : Nat)
    (hop1 : 0x8000 ≤ op) (hop2 : op < 0x9000) (hminor : decodeMinor op = 4)
    (hxF : decodeX op ≠ 0xF)
    (hvx : cpu.registers[decodeX op]? = some vx)
    (hvy : cpu.registers[decodeY op]? = some vy)
    (hlen : cpu.registers.length = 16) :
    ∃ c, cpu.dispatch op = .next c ∧
      c.registers[decodeX op]? = some ((vx + vy) % 256) ∧
      c.registers[0xF]? = some (if 255 < vx + vy then 1 else 0) := by
  have hx := lt_of_getElem?_some hvx
  refine ⟨{ cpu with registers := ((cpu.registers.set (decodeX op) ((vx + vy) % 256)).set 0xF (if 255 < vx + vy then 1 else 0)) }, ?_, ?_, ?_⟩
  · rw [dispatch_add_xy cpu op hop1 hop2 hminor,
        CPU.add_xy_spec cpu _ _ _ _ hvx hvy hlen]
    rfl
  · show ((cpu.registers.set (decodeX op) ((vx + vy) % 256)).set 0xF (if 255 < vx + vy then 1 else 0))[decodeX op]? = some ((vx + vy) % 256)
    rw [List.getElem?_set_ne (by omega), List.getElem?_set_self (by omega)]
  · show ((cpu.registers.set (decodeX op) ((vx + vy) % 256)).set 0xF (if 255 < vx + vy then 1 else 0))[0xF]? = some (if 255 < vx + vy then 1 else 0)
    rw [List.getElem?_set_self (by rw [List.length_set]; omega)]

/-- C3 witness: concrete evaluation at opcode 0x8124 with V1 = 200 and
V2 = 100, an overflowing addition. -/
theorem C3_add_reg_sum_and_carry_witness :
    ∃ c, CPU.dispatch ⟨[0, 200, 100, 0, 0, 0, 0, 0, 0, 0, 0, 0, 0, 0, 0, 0], 2, [], [], 0⟩ 0x8124 = .next c ∧
      c.registers[decodeX 0x8124]? = some ((200 + 100) % 256) ∧
      c.registers[0xF]? = some (if 255 < 200 + 100 then 1 else 0) :=
  C3_add_reg_sum_and_carry ⟨[0, 200, 100, 0, 0, 0, 0, 0, 0, 0, 0, 0, 0, 0, 0, 0], 2, [], [], 0⟩
    0x8124 200 100 (by decide) (by decide) (by decide) (by decide) (by decide)
    (by decide) (by decide)

/-- C4: executing SUB-REG (0x8xy5) with x different from 0xF sets VF
to 1 exactly when Vx is strictly greater than Vy, and stores the
unsigned 8-bit wraparound difference (Vx - Vy) mod 256 in Vx,
including when Vx < Vy. -/
theorem C4_sub_reg_flag_and_wrap (cpu : CPU) (op vx vy : Nat)
    (hop1 : 0x8000 ≤ op) (hop2 : op < 0x9000) (hminor : decodeMinor op = 5)
    (hxF : decodeX op ≠ 0xF)
    (hvx : cpu.registers[decodeX op]? = some vx)
    (hvy : cpu.registers[decodeY op]? = some vy)
    (hlen : cpu.registers.length = 16)
    (hvx8 : vx < 256) (hvy8 : vy < 256) :
    ∃ c, cpu.dispatch op = .next c ∧
      c.registers[0xF]? = some (if vy < vx then 1 else 0) ∧
      ∃ r, c.registers[decodeX op]? = some r ∧ (r : Int) = ((vx : Int) - (vy : Int)) % 256 := by
  have hx := lt_of_getElem?_some hvx
  refine ⟨{ cpu with registers := ((cpu.registers.set 0xF (if vy < vx then 1 else 0)).set (decodeX op) ((vx + 256 - vy) % 256)) }, ?_, ?_, ?_⟩
  · rw [dispatch_sub_xy cpu op hop1 hop2 hminor,
        CPU.sub_xy_spec cpu _ _ _ _ hvx hvy hlen]
    rfl
  · show ((cpu.registers.set 0xF (if vy < vx then 1 else 0)).set (decodeX op) ((vx + 256 - vy) % 256))[0xF]? = some (if vy < vx then 1 else 0)
    rw [List.getElem?_set_ne (by omega), List.getElem?_set_self (by omega)]
  · refine ⟨(vx + 256 - vy) % 256, ?_, ?_⟩
    · show ((cpu.registers.set 0xF (if vy < vx then 1 else 0)).set (decodeX op) ((vx + 256 - vy) % 256))[decodeX op]? = some ((vx + 256 - vy) % 256)
      rw [List.getElem?_set_self (by rw [List.length_set]; omega)]
    · omega

/-- C4 witness: concrete evaluation at opcode 0x8125 with V1 = 100 and
V2 = 200, an underflowing subtraction that wraps to 156. -/
theorem C4_sub_reg_flag_and_wrap_witness :
    ∃ c, CPU.dispatch ⟨[0, 100, 200, 0, 0, 0, 0, 0, 0, 0, 0, 0, 0, 0, 0, 0], 2, [], [], 0⟩ 0x8125 = .next c ∧
      c.registers[0xF]? = some (if 200 < 100 then 1 else 0) ∧
      ∃ r, c.registers[decodeX 0x8125]? = some r ∧ (r : Int) = ((100 : Int) - (200 : Int)) % 256 :=
  C4_sub_reg_flag_and_wrap ⟨[0, 100, 200, 0, 0, 0, 0, 0, 0, 0, 0, 0, 0, 0, 0, 0], 2, [], [], 0⟩
    0x8125 100 200 (by decide) (by decide) (by decide) (by decide) (by decide)
    (by decide) (by decide) (by decide) (by decide)

/-- C5 counterexample: the claim asserts ADD-IMM leaves register VF
unchanged for every opcode 0x7xkk, but when x = 0xF the destination
register is VF itself: opcode 0x7F01 on a state with VF = 0 yields
VF = 1. -/
theorem C5_add_imm_clobbers_vf_when_x_is_f :
    CPU.dispatch ⟨[0, 0, 0, 0, 0, 0, 0, 0, 0, 0, 0, 0, 0, 0, 0, 0], 2, [], [], 0⟩ 0x7F01
      = .next ⟨[0, 0, 0, 0, 0, 0, 0, 0, 0, 0, 0, 0, 0, 0, 0, 1], 2, [], [], 0⟩ := by
  decide

/-- C5 (amended): executing ADD-IMM (0x7xkk) stores (Vx + kk) mod 256
into register x, wrapping on overflow, and leaves every register other
than x unchanged; in particular VF is unchanged whenever x is not 0xF.
The program counter, stack and stack pointer are untouched. -/
theorem C5_add_imm_wraps_no_flag (cpu : CPU) (op vx : Nat)
    (hop1 : 0x7000 ≤ op) (hop2 : op < 0x8000)
    (hvx : cpu.registers[decodeX op]? = some vx) :
    ∃ c, cpu.dispatch op = .next c ∧
      c.registers[decodeX op]? = some ((vx + decodeKK op) % 256) ∧
      (∀ j, j ≠ decodeX op → c.registers[j]? = cpu.registers[j]?) ∧
      (decodeX op ≠ 0xF → c.registers[0xF]? = cpu.registers[0xF]?) ∧
      c.position_in_memory = cpu.position_in_memory ∧
      c.stack = cpu.stack ∧
      c.stack_pointer = cpu.stack_pointer := by
  have hx := lt_of_getElem?_some hvx
  refine ⟨{ cpu with registers := cpu.registers.set (decodeX op) ((vx + decodeKK op) % 256) }, ?_, ?_, ?_, ?_, rfl, rfl, rfl⟩
  · rw [dispatch_add_imm cpu op hop1 hop2, CPU.add_spec cpu _ _ _ hvx]
    rfl
  · show (cpu.registers.set (decodeX op) ((vx + decodeKK op) % 256))[decodeX op]? = some ((vx + decodeKK op) % 256)
    rw [List.getElem?_set_self hx]
  · intro j hj
    show (cpu.registers.set (decodeX op) ((vx + decodeKK op) % 256))[j]? = cpu.registers[j]?
    rw [List.getElem?_set_ne (by omega)]
  · intro hF
    show (cpu.registers.set (decodeX op) ((vx + decodeKK op) % 256))[0xF]? = cpu.registers[0xF]?
    rw [List.getElem?_set_ne (by omega)]

/-- C5 witness: concrete evaluation at opcode 0x710A with V1 = 250, an
overflowing immediate addition that wraps to 4. -/
theorem C5_add_imm_wraps_no_flag_witness :
    ∃ c, CPU.dispatch ⟨[0, 250, 0, 0, 0, 0, 0, 0, 0, 0, 0, 0, 0, 0, 0, 0], 2, [], [], 0⟩ 0x710A = .next c ∧
      c.registers[decodeX 0x710A]? = some ((250 + decodeKK 0x710A) % 256) ∧
      (∀ j, j ≠ decodeX 0x710A → c.registers[j]? = ([0, 250, 0, 0, 0, 0, 0, 0, 0, 0, 0, 0, 0, 0, 0, 0] : List Nat)[j]?) ∧
      (decodeX 0x710A ≠ 0xF → c.registers[0xF]? = ([0, 250, 0, 0, 0, 0, 0, 0, 0, 0, 0, 0, 0, 0, 0, 0] : List Nat)[0xF]?) ∧
      c.position_in_memory = 2 ∧
      c.stack = [] ∧
      c.stack_pointer = 0 :=
  C5_add_imm_wraps_no_flag ⟨[0, 250, 0, 0, 0, 0, 0, 0, 0, 0, 0, 0, 0, 0, 0, 0], 2, [], [], 0⟩
    0x710A 250 (by decide) (by decide) (by decide)

/-- C6: for a program counter p with bytes b0 at p and b1 at p + 1,
the fetch yields the big-endian opcode (b0 <<< 8) ||| b1 and the step
is the dispatch of that opcode on the state whose program counter is
already p + 2, so every instruction effect (including jump, call and
return targets) is applied after the pre-increment. -/
theorem C6_fetch_big_endian_and_preincrement (cpu : CPU) (b0 b1 : Nat)
    (hlen : cpu.memory.length = 4096)
    (hp : cpu.position_in_memory ≤ 4094)
    (hb0 : cpu.memory[cpu.position_in_memory]? = some b0)
    (hb1 : cpu.memory[cpu.position_in_memory + 1]? = some b1) :
    cpu.read_opcode = .ok ((b0 <<< 8) ||| b1) ∧
    cpu.step = CPU.dispatch { cpu with position_in_memory := cpu.position_in_memory + 2 } ((b0 <<< 8) ||| b1) := by
  constructor
  · unfold CPU.read_opcode
    rw [hb0, hb1]
  · exact step_eq_dispatch cpu b0 b1 hb0 hb1

/-- A concrete machine with a full 4096-byte memory holding bytes 0x12
and 0x34 at addresses 0 and 1. -/
def cpuFetchDemo : CPU :=
  { registers := [], position_in_memory := 0,
    memory := 0x12 :: 0x34 :: List.replicate 4094 0, stack := [], stack_pointer := 0 }

/-- C6 witness: the demo machine fetches opcode 0x1234 and advances
the program counter to 2 before dispatch. -/
theorem C6_fetch_big_endian_and_preincrement_witness :
    cpuFetchDemo.read_opcode = .ok ((0x12 <<< 8) ||| 0x34) ∧
    cpuFetchDemo.step = CPU.dispatch { cpuFetchDemo with position_in_memory := cpuFetchDemo.position_in_memory + 2 } ((0x12 <<< 8) ||| 0x34) :=
  C6_fetch_big_endian_and_preincrement cpuFetchDemo 0x12 0x34
    (by simp only [cpuFetchDemo, List.length_cons, List.length_replicate])
    (by simp only [cpuFetchDemo]; omega)
    (by simp only [cpuFetchDemo, List.getElem?_cons_zero])
    (by simp only [cpuFetchDemo, List.getElem?_cons_succ, List.getElem?_cons_zero])

theorem CPU.or_xy_spec (cpu : CPU) (x y vx vy : Nat)
    (hvx : cpu.registers[x]? = some vx) (hvy : cpu.registers[y]? = some vy) :
    cpu.or_xy x y = .ok { cpu with registers := cpu.registers.set x (vx ||| vy) } := by
  unfold CPU.or_xy
  rw [getReg_ok _ _ _ hvx, ok_bind, getReg_ok _ _ _ hvy, ok_bind,
      setReg_ok _ _ _ (lt_of_getElem?_some hvx), ok_bind, pure_ok]

theorem CPU.and_xy_spec (cpu : CPU) (x y vx vy : Nat)
    (hvx : cpu.registers[x]? = some vx) (hvy : cpu.registers[y]? = some vy) :
    cpu.and_xy x y = .ok { cpu with registers := cpu.registers.set x (vx &&& vy) } := by
  unfold CPU.and_xy
  rw [getReg_ok _ _ _ hvx, ok_bind, getReg_ok _ _ _ hvy, ok_bind,
      setReg_ok _ _ _ (lt_of_getElem?_some hvx), ok_bind, pure_ok]

theorem CPU.xor_xy_spec (cpu : CPU) (x y vx vy : Nat)
    (hvx : cpu.registers[x]? = some vx) (hvy : cpu.registers[y]? = some vy) :
    cpu.xor_xy x y = .ok { cpu with registers := cpu.registers.set x (vx ^^^ vy) } := by
  unfold CPU.xor_xy
  rw [getReg_ok _ _ _ hvx, ok_bind, getReg_ok _ _ _ hvy, ok_bind,
      setReg_ok _ _ _ (lt_of_getElem?_some hvx), ok_bind, pure_ok]

theorem ret_no_register_fault (cpu : CPU) :
    outcomeOf cpu.ret ≠ .fault .registerOOB := by
  unfold CPU.ret
  split
  · decide
  · split <;> simp [outcomeOf]

theorem call_no_register_fault (cpu : CPU) (addr : Nat) :
    outcomeOf (cpu.call addr) ≠ .fault .registerOOB := by
  unfold CPU.call
  split
  · decide
  · split <;> simp [outcomeOf]

/-- C7: with room on the stack, a fetched CALL pushes the post-fetch
program counter — the address of the instruction immediately after the
CALL — and a RETURN executed later, with that same stack and stack
pointer, restores the program counter to exactly that address and the
stack pointer to its pre-CALL value. -/
theorem C7_call_ret_roundtrip (cpu : CPU) (b0 b1 : Nat)
    (hsp : cpu.stack_pointer < 16) (hstk : cpu.stack.length = 16)
    (hpc : cpu.position_in_memory + 2 < 65536)
    (hb0 : cpu.memory[cpu.position_in_memory]? = some b0)
    (hb1 : cpu.memory[cpu.position_in_memory + 1]? = some b1)
    (hcall1 : 0x2000 ≤ (b0 <<< 8) ||| b1) (hcall2 : (b0 <<< 8) ||| b1 < 0x3000) :
    ∃ c1, cpu.step = .next c1 ∧
      c1.position_in_memory = decodeAddr ((b0 <<< 8) ||| b1) ∧
      c1.stack_pointer = cpu.stack_pointer + 1 ∧
      ∀ s : CPU, s.stack = c1.stack → s.stack_pointer = c1.stack_pointer →
        ∃ c2, s.ret = .ok c2 ∧
          c2.position_in_memory = cpu.position_in_memory + 2 ∧
          c2.stack_pointer = cpu.stack_pointer := by
  have hstep := step_eq_dispatch cpu b0 b1 hb0 hb1
  refine ⟨{ cpu with
      position_in_memory := decodeAddr ((b0 <<< 8) ||| b1),
      stack := cpu.stack.set cpu.stack_pointer ((cpu.position_in_memory + 2) % 65536),
      stack_pointer := cpu.stack_pointer + 1 }, ?_, rfl, rfl, ?_⟩
  · have hlt : ({ cpu with position_in_memory := cpu.position_in_memory + 2 } : CPU).stack_pointer
        < ({ cpu with position_in_memory := cpu.position_in_memory + 2 } : CPU).stack.length := by
      show cpu.stack_pointer < cpu.stack.length
      omega
    rw [hstep,
        dispatch_call { cpu with position_in_memory := cpu.position_in_memory + 2 }
          ((b0 <<< 8) ||| b1) hcall1 hcall2,
        CPU.call_spec _ _ hlt]
    rfl
  · intro s hs hsp2
    have hspv : s.stack_pointer = cpu.stack_pointer + 1 := hsp2
    have hsv : s.stack = cpu.stack.set cpu.stack_pointer ((cpu.position_in_memory + 2) % 65536) := hs
    have hread : s.stack[s.stack_pointer - 1]? = some ((cpu.position_in_memory + 2) % 65536) := by
      rw [hsv, hspv]
      simp only [Nat.add_sub_cancel]
      exact List.getElem?_set_self (by omega)
    refine ⟨_, CPU.ret_spec s _ (by omega) hread, ?_, ?_⟩
    · show ((cpu.position_in_memory + 2) % 65536) = cpu.position_in_memory + 2
      exact Nat.mod_eq_of_lt hpc
    · show s.stack_pointer - 1 = cpu.stack_pointer
      omega

/-- A concrete machine about to execute CALL 0x100 from address 0 with
an empty call stack. -/
def cpuCallDemo : CPU :=
  { registers := [], position_in_memory := 0, memory := [0x21, 0x00],
    stack := List.replicate 16 0, stack_pointer := 0 }

/-- C7 witness: the demo machine calls 0x100 and the later RETURN
restores the program counter to 2 and the stack pointer to 0. -/
theorem C7_call_ret_roundtrip_witness :
    ∃ c1, cpuCallDemo.step = .next c1 ∧
      c1.position_in_memory = decodeAddr ((0x21 <<< 8) ||| 0x00) ∧
      c1.stack_pointer = cpuCallDemo.stack_pointer + 1 ∧
      ∀ s : CPU, s.stack = c1.stack → s.stack_pointer = c1.stack_pointer →
        ∃ c2, s.ret = .ok c2 ∧
          c2.position_in_memory = cpuCallDemo.position_in_memory + 2 ∧
          c2.stack_pointer = cpuCallDemo.stack_pointer :=
  C7_call_ret_roundtrip cpuCallDemo 0x21 0x00 (by decide) (by decide) (by decide)
    (by decide) (by decide) (by decide) (by decide)

/-- C8: a RETURN with the stack pointer at 0 aborts with a stack
underflow, and a CALL with the stack pointer at the capacity 16 (after
16 nested CALLs) aborts as well — through the out-of-bounds stack
write, since the explicit overflow guard of the source is off-by-one
and only fires above 16 — and a faulting step terminates the whole run
at once with that fault, whatever fuel remains. -/
theorem C8_stack_bounds_fatal (c1 c2 : CPU) (addr : Nat)
    (h1 : c1.stack_pointer = 0)
    (h2 : c2.stack_pointer = 16) (h2len : c2.stack.length = 16) :
    c1.ret = .error .stackUnderflow ∧
    c2.call addr = .error .stackOOB ∧
    (∀ (s : CPU) (f : Fault) (fuel : Nat), s.step = .fault f → s.run (fuel + 1) = .fault f) := by
  refine ⟨?_, ?_, fun s f fuel h => run_succ_fault s f fuel h⟩
  · unfold CPU.ret
    rw [if_pos h1]
  · unfold CPU.call
    rw [iteFalse (by omega), iteFalse (by omega)]

/-- A concrete machine whose call stack is at the capacity of 16. -/
def cpuFullStack : CPU :=
  { registers := [], position_in_memory := 0, memory := [],
    stack := List.replicate 16 0, stack_pointer := 16 }

/-- C8 witness: the two abort conditions evaluated on concrete
machines with stack pointer 0 and 16. -/
theorem C8_stack_bounds_fatal_witness :
    cpuCallDemo.ret = .error .stackUnderflow ∧
    cpuFullStack.call 0x100 = .error .stackOOB ∧
    (∀ (s : CPU) (f : Fault) (fuel : Nat), s.step = .fault f → s.run (fuel + 1) = .fault f) :=
  C8_stack_bounds_fatal cpuCallDemo cpuFullStack 0x100 (by decide) (by decide) (by decide)

/-- The opcode patterns listed in the dispatch table of the spec and
the claim: the exact values 0x0000, 0x00E0, 0x00EE, the families
0x1nnn through 0x7xkk with 0x5xy0 demanding a zero low nibble, and
0x8xy0 through 0x8xy5. -/
def listedOpcode (op : Nat) : Prop :=
  op = 0x0000 ∨ op = 0x00E0 ∨ op = 0x00EE ∨
  (0x1000 ≤ op ∧ op ≤ 0x4FFF) ∨
  (0x5000 ≤ op ∧ op ≤ 0x5FFF ∧ decodeMinor op = 0) ∨
  (0x6000 ≤ op ∧ op ≤ 0x7FFF) ∨
  (0x8000 ≤ op ∧ op ≤ 0x8FFF ∧ decodeMinor op ≤ 5)

instance (op : Nat) : Decidable (listedOpcode op) := by
  unfold listedOpcode; infer_instance

/-- The opcodes the code dispatches to a handler: the listed table
except that the whole 0x5xyn family is matched whatever the low
nibble is. -/
def dispatchedOpcode (op : Nat) : Prop :=
  op = 0x0000 ∨ op = 0x00E0 ∨ op = 0x00EE ∨
  (0x1000 ≤ op ∧ op ≤ 0x7FFF) ∨
  (0x8000 ≤ op ∧ op ≤ 0x8FFF ∧ decodeMinor op ≤ 5)

instance (op : Nat) : Decidable (dispatchedOpcode op) := by
  unfold dispatchedOpcode; infer_instance

/-- C9 counterexample: opcode 0x5121 is not one of the listed patterns
(0x5xy0 requires a zero low nibble) yet the code dispatches it to the
skip handler and execution continues without any fault. -/
theorem C9_unlisted_5xy1_not_fatal :
    ¬ listedOpcode 0x5121 ∧
    CPU.dispatch ⟨[0, 0, 0, 0, 0, 0, 0, 0, 0, 0, 0, 0, 0, 0, 0, 0], 2, [], [], 0⟩ 0x5121
      = .next ⟨[0, 0, 0, 0, 0, 0, 0, 0, 0, 0, 0, 0, 0, 0, 0, 0], 2, [], [], 0⟩ := by
  decide

/-- C9 (amended): every 16-bit opcode outside the dispatched set —
the listed table with 0x5xy0 broadened to the whole 0x5xyn family —
is fatal with an unsupported-opcode failure, with no state change,
and a faulting step terminates the run at once whatever fuel
remains. -/
theorem C9_unsupported_opcode_fatal (cpu : CPU) (op : Nat)
    (hop : op < 0x10000) (h : ¬ dispatchedOpcode op) :
    cpu.dispatch op = .fault (.unsupportedOpcode op) ∧
    (∀ (s : CPU) (fuel : Nat), s.step = .fault (.unsupportedOpcode op) →
      s.run (fuel + 1) = .fault (.unsupportedOpcode op)) := by
  refine ⟨?_, fun s fuel hs => run_succ_fault s _ fuel hs⟩
  unfold dispatchedOpcode at h
  rcases Nat.lt_or_ge op 0x1000 with hr | hr
  · unfold CPU.dispatch
    rw [iteFalse (by omega), iteFalse (by omega), iteFalse (by omega), iteTrue (by omega)]
  · rcases Nat.lt_or_ge op 0x8000 with hr2 | hr2
    · exact absurd (Or.inr (Or.inr (Or.inr (Or.inl (by omega))))) h
    · rcases Nat.lt_or_ge op 0x9000 with hr3 | hr3
      · have hm : 5 < decodeMinor op := by omega
        have hle := decodeMinor_le op
        unfold CPU.dispatch
        rw [iteFalse (by omega), iteFalse (by omega), iteFalse (by omega), iteFalse (by omega),
            iteFalse (by omega), iteFalse (by omega), iteFalse (by omega), iteFalse (by omega),
            iteFalse (by omega), iteFalse (by omega), iteFalse (by omega), iteTrue (by omega)]
        set m := decodeMinor op with hmm
        interval_cases m <;> first | omega | rfl
      · unfold CPU.dispatch
        rw [iteFalse (by omega), iteFalse (by omega), iteFalse (by omega), iteFalse (by omega),
            iteFalse (by omega), iteFalse (by omega), iteFalse (by omega), iteFalse (by omega),
            iteFalse (by omega), iteFalse (by omega), iteFalse (by omega), iteFalse (by omega)]

/-- C9 witness: opcode 0x9000 on a concrete machine faults with the
unsupported-opcode failure. -/
theorem C9_unsupported_opcode_fatal_witness :
    CPU.dispatch cpuCallDemo 0x9000 = .fault (.unsupportedOpcode 0x9000) ∧
    (∀ (s : CPU) (fuel : Nat), s.step = .fault (.unsupportedOpcode 0x9000) →
      s.run (fuel + 1) = .fault (.unsupportedOpcode 0x9000)) :=
  C9_unsupported_opcode_fatal cpuCallDemo 0x9000 (by decide) (by decide)

theorem dispatch_unsupported_low (cpu : CPU) (op : Nat) (h1 : op < 0x1000)
    (h2 : op ≠ 0x0000) (h3 : op ≠ 0x00E0) (h4 : op ≠ 0x00EE) :
    cpu.dispatch op = .fault (.unsupportedOpcode op) := by
  unfold CPU.dispatch
  rw [iteFalse (by omega), iteFalse (by omega), iteFalse (by omega), iteTrue (by omega)]

theorem dispatch_jmp (cpu : CPU) (op : Nat) (h1 : 0x1000 ≤ op) (h2 : op < 0x2000) :
    cpu.dispatch op = outcomeOf (cpu.jmp (decodeAddr op)) := by
  unfold CPU.dispatch
  rw [iteFalse (by omega), iteFalse (by omega), iteFalse (by omega), iteFalse (by omega),
      iteTrue (by omega)]

theorem dispatch_sne_imm (cpu : CPU) (op : Nat) (h1 : 0x4000 ≤ op) (h2 : op < 0x5000) :
    cpu.dispatch op = .next (cpu.sne (decodeX op) (decodeKK op)) := by
  unfold CPU.dispatch
  rw [iteFalse (by omega), iteFalse (by omega), iteFalse (by omega), iteFalse (by omega),
      iteFalse (by omega), iteFalse (by omega), iteFalse (by omega), iteTrue (by omega)]

theorem dispatch_ld_imm (cpu : CPU) (op : Nat) (h1 : 0x6000 ≤ op) (h2 : op < 0x7000) :
    cpu.dispatch op = outcomeOf (cpu.ld (decodeX op) (decodeKK op)) := by
  unfold CPU.dispatch
  rw [iteFalse (by omega), iteFalse (by omega), iteFalse (by omega), iteFalse (by omega),
      iteFalse (by omega), iteFalse (by omega), iteFalse (by omega), iteFalse (by omega),
      iteFalse (by omega), iteTrue (by omega)]

theorem dispatch_8family (cpu : CPU) (op : Nat) (h1 : 0x8000 ≤ op) (h2 : op < 0x9000) :
    cpu.dispatch op =
      (match decodeMinor op with
        | 0 => outcomeOf (do cpu.ld (decodeX op) (← getReg cpu.registers (decodeY op)))
        | 1 => outcomeOf (cpu.or_xy (decodeX op) (decodeY op))
        | 2 => outcomeOf (cpu.and_xy (decodeX op) (decodeY op))
        | 3 => outcomeOf (cpu.xor_xy (decodeX op) (decodeY op))
        | 4 => outcomeOf (cpu.add_xy (decodeX op) (decodeY op))
        | 5 => outcomeOf (cpu.sub_xy (decodeX op) (decodeY op))
        | _ => .fault (.unsupportedOpcode op)) := by
  unfold CPU.dispatch
  rw [iteFalse (by omega), iteFalse (by omega), iteFalse (by omega), iteFalse (by omega),
      iteFalse (by omega), iteFalse (by omega), iteFalse (by omega), iteFalse (by omega),
      iteFalse (by omega), iteFalse (by omega), iteFalse (by omega), iteTrue (by omega)]

theorem dispatch_unsupported_high (cpu : CPU) (op : Nat) (h1 : 0x9000 ≤ op) :
    cpu.dispatch op = .fault (.unsupportedOpcode op) := by
  unfold CPU.dispatch
  rw [iteFalse (by omega), iteFalse (by omega), iteFalse (by omega), iteFalse (by omega),
      iteFalse (by omega), iteFalse (by omega), iteFalse (by omega), iteFalse (by omega),
      iteFalse (by omega), iteFalse (by omega), iteFalse (by omega), iteFalse (by omega)]

/-- C10: the decoded operand register indices are 4-bit values below
16, so on a machine with the full 16 registers no dispatch outcome is
a register-index-out-of-bounds fault: the out-of-bounds branch of
register indexing (including the implicit writes to register 0xF) is
unreachable. -/
theorem C10_register_accesses_in_bounds (cpu : CPU) (op : Nat)
    (hlen : cpu.registers.length = 16) :
    decodeX op < 16 ∧ decodeY op < 16 ∧
    cpu.dispatch op ≠ .fault .registerOOB := by
  have hx := decodeX_lt op
  have hy := decodeY_lt op
  obtain ⟨vx, hvx⟩ : ∃ v, cpu.registers[decodeX op]? = some v :=
    ⟨_, List.getElem?_eq_getElem (by omega)⟩
  obtain ⟨vy, hvy⟩ : ∃ v, cpu.registers[decodeY op]? = some v :=
    ⟨_, List.getElem?_eq_getElem (by omega)⟩
  refine ⟨hx, hy, ?_⟩
  rcases Nat.lt_or_ge op 0x1000 with h1 | h1
  · by_cases h0 : op = 0x0000
    · subst h0
      show StepOutcome.halt cpu ≠ .fault .registerOOB
      simp
    by_cases hE0 : op = 0x00E0
    · subst hE0
      show StepOutcome.next cpu ≠ .fault .registerOOB
      simp
    by_cases hEE : op = 0x00EE
    · subst hEE
      show outcomeOf cpu.ret ≠ .fault .registerOOB
      exact ret_no_register_fault cpu
    rw [dispatch_unsupported_low cpu op h1 h0 hE0 hEE]
    simp
  rcases Nat.lt_or_ge op 0x2000 with h2 | h2
  · rw [dispatch_jmp cpu op h1 h2]
    simp [CPU.jmp, outcomeOf]
  rcases Nat.lt_or_ge op 0x3000 with h3 | h3
  · rw [dispatch_call cpu op h2 h3]
    exact call_no_register_fault cpu _
  rcases Nat.lt_or_ge op 0x4000 with h4 | h4
  · rw [dispatch_se_imm cpu op h3 h4]
    simp
  rcases Nat.lt_or_ge op 0x5000 with h5 | h5
  · rw [dispatch_sne_imm cpu op h4 h5]
    simp
  rcases Nat.lt_or_ge op 0x6000 with h6 | h6
  · rw [dispatch_se_reg cpu op h5 h6]
    simp
  rcases Nat.lt_or_ge op 0x7000 with h7 | h7
  · rw [dispatch_ld_imm cpu op h6 h7]
    rw [CPU.ld_spec cpu _ _ (by omega)]
    simp [outcomeOf]
  rcases Nat.lt_or_ge op 0x8000 with h8 | h8
  · rw [dispatch_add_imm cpu op h7 h8]
    rw [CPU.add_spec cpu _ _ _ hvx]
    simp [outcomeOf]
  rcases Nat.lt_or_ge op 0x9000 with h9 | h9
  · rw [dispatch_8family cpu op h8 h9]
    have hle := decodeMinor_le op
    set m := decodeMinor op with hm
    interval_cases m
    · show outcomeOf (do cpu.ld (decodeX op) (← getReg cpu.registers (decodeY op))) ≠ .fault .registerOOB
      rw [getReg_ok _ _ _ hvy, ok_bind, CPU.ld_spec cpu _ _ (by omega)]
      simp [outcomeOf]
    · show outcomeOf (cpu.or_xy (decodeX op) (decodeY op)) ≠ .fault .registerOOB
      rw [CPU.or_xy_spec cpu _ _ _ _ hvx hvy]
      simp [outcomeOf]
    · show outcomeOf (cpu.and_xy (decodeX op) (decodeY op)) ≠ .fault .registerOOB
      rw [CPU.and_xy_spec cpu _ _ _ _ hvx hvy]
      simp [outcomeOf]
    · show outcomeOf (cpu.xor_xy (decodeX op) (decodeY op)) ≠ .fault .registerOOB
      rw [CPU.xor_xy_spec cpu _ _ _ _ hvx hvy]
      simp [outcomeOf]
    · show outcomeOf (cpu.add_xy (decodeX op) (decodeY op)) ≠ .fault .registerOOB
      rw [CPU.add_xy_spec cpu _ _ _ _ hvx hvy hlen]
      simp [outcomeOf]
    · show outcomeOf (cpu.sub_xy (decodeX op) (decodeY op)) ≠ .fault .registerOOB
      rw [CPU.sub_xy_spec cpu _ _ _ _ hvx hvy hlen]
      simp [outcomeOf]
    all_goals
      show StepOutcome.fault (.unsupportedOpcode op) ≠ .fault .registerOOB
      simp
  rw [dispatch_unsupported_high cpu op h9]
  simp

/-- C10 witness: at opcode 0x8F21 even the handlers that write to VF
stay within bounds on a 16-register machine. -/
theorem C10_register_accesses_in_bounds_witness :
    decodeX 0x8F21 < 16 ∧ decodeY 0x8F21 < 16 ∧
    CPU.dispatch ⟨[0, 0, 0, 0, 0, 0, 0, 0, 0, 0, 0, 0, 0, 0, 0, 0], 2, [], [], 0⟩ 0x8F21
      ≠ .fault .registerOOB :=
  C10_register_accesses_in_bounds ⟨[0, 0, 0, 0, 0, 0, 0, 0, 0, 0, 0, 0, 0, 0, 0, 0], 2, [], [], 0⟩
    0x8F21 (by decide)
